import Mathlib

/-!
Shallow embedding of the Mullvad relay selector core:
`mullvad-relay-selector/src/relay_selector.rs` together with its submodules
`helpers.rs` and `matcher.rs`, and `mullvad-types/src/relay_constraints.rs`.

Randomness is modelled by passing the drawn values explicitly (a draw `d`
stands for the raw output of the thread RNG; uniform choice from a list is
`get? (d % length)`).  Floating point great-circle distances are abstracted
as a caller-supplied natural-valued distance function.  Types that live in
files of this repository not included under `src/` (`constraints.rs`,
`relay_list.rs`, `location.rs`, talpid-types) are modelled from the spec and
marked as such.
-/

/-- Modelled from the spec: `TransportProtocol` (talpid-types, not under src/). -/
inductive TransportProtocol
  | udp
  | tcp
deriving DecidableEq

/-- Modelled from the spec: `TunnelType` (talpid-types, not under src/). -/
inductive TunnelType
  | wireguard
  | openvpn
deriving DecidableEq

/-- Modelled from the spec: `IpVersion` (talpid-types, not under src/). -/
inductive IpVersion
  | v4
  | v6
deriving DecidableEq

/-- Modelled from the spec: relay location (mullvad-types/src/location.rs, not
under src/): country code, city code; the coordinates are not modelled — the
great-circle distance computation is abstracted where it is used. -/
structure Location where
  country_code : String
  city_code : String
deriving DecidableEq

/-- Modelled from the spec: the endpoint-kind tagged payload of a relay
(`RelayEndpointData` in mullvad-types/src/relay_list.rs, not under src/). -/
inductive RelayEndpointData
  | wireguard (public_key : String)
  | openvpn
  | bridge
deriving DecidableEq

/-- Modelled from the spec: `Relay` (mullvad-types/src/relay_list.rs, not under
src/): hostname, location, provider, owned, active, weight,
include_in_country, entry IP addresses, and the endpoint-kind payload. -/
structure Relay where
  hostname : String
  ipv4_addr_in : String
  ipv6_addr_in : Option String
  include_in_country : Bool
  active : Bool
  owned : Bool
  provider : String
  weight : Nat
  endpoint_data : RelayEndpointData
  location : Option Location
deriving DecidableEq

/-- Modelled from the spec: `Constraint<T>` is `Any | Only(T)`
(mullvad-types/src/constraints.rs, not under src/). -/
inductive Constraint (α : Type)
  | any
  | only (value : α)
deriving DecidableEq

def Constraint.is_any : Constraint α → Bool
  | .any => true
  | .only _ => false

def Constraint.is_only : Constraint α → Bool
  | .any => false
  | .only _ => true

/-- Modelled from the spec: `Constraint::intersection` — `Any ∩ x = x`,
`Only(x) ∩ Only(y) = Only(x ∩ y)` via the inner intersection, `None` when the
inner intersection is `None`. -/
def Constraint.intersectionWith (inner : α → α → Option α) :
    Constraint α → Constraint α → Option (Constraint α)
  | .any, other => some other
  | .only v, .any => some (.only v)
  | .only a, .only b => (inner a b).map Constraint.only

/-- Modelled from the spec: for leaf types the inner intersection is equality
(`None` when the two `Only` values differ). -/
def Constraint.intersection [DecidableEq α] (a b : Constraint α) :
    Option (Constraint α) :=
  Constraint.intersectionWith (fun x y => if x = y then some x else none) a b

/-- Modelled from the spec: `Constraint::matches` is true for `Any` and
delegates to the inner `matches` otherwise. -/
def Constraint.matchesWith (m : α → Relay → Bool) : Constraint α → Relay → Bool
  | .any, _ => true
  | .only v, r => m v r

/-- `GeographicLocationConstraint` (relay_constraints.rs): country, city, or
single hostname. -/
inductive GeographicLocationConstraint
  | country (country : String)
  | city (country : String) (city : String)
  | hostname (country : String) (city : String) (hostname : String)
deriving DecidableEq

/-- `GeographicLocationConstraint::matches_with_opts` (relay_constraints.rs):
only the `Country` arm consults `include_in_country` (unless ignored); the
`City` and `Hostname` arms never do. -/
def GeographicLocationConstraint.matches_with_opts :
    GeographicLocationConstraint → Relay → Bool → Bool
  | .country c, relay, ignore_include_in_country =>
      (match relay.location with
       | some loc => loc.country_code == c
       | none => false)
      && (ignore_include_in_country || relay.include_in_country)
  | .city c ci, relay, _ =>
      (match relay.location with
       | some loc => loc.country_code == c && loc.city_code == ci
       | none => false)
  | .hostname c ci host, relay, _ =>
      (match relay.location with
       | some loc => loc.country_code == c && loc.city_code == ci
                      && relay.hostname == host
       | none => false)

/-- `LocationConstraint` (relay_constraints.rs): geographic or custom list. -/
inductive LocationConstraint
  | location (loc : GeographicLocationConstraint)
  | customList (list_id : Nat)
deriving DecidableEq

/-- Modelled from the spec: a custom list resolves to a (possibly empty) set of
geographic constraints (mullvad-types/src/custom_list.rs, not under src/). -/
structure CustomList where
  id : Nat
  locations : List GeographicLocationConstraint
deriving DecidableEq

abbrev CustomListsSettings := List CustomList

/-- `ResolvedLocationConstraint` (relay_constraints.rs). -/
inductive ResolvedLocationConstraint
  | location (loc : GeographicLocationConstraint)
  | locations (locs : List GeographicLocationConstraint)
deriving DecidableEq

/-- `ResolvedLocationConstraint::from_constraint` (relay_constraints.rs): a
custom-list constraint resolves through the settings; a missing list resolves
to the empty set of locations (a logged warning in the source). -/
def ResolvedLocationConstraint.from_constraint
    (location : Constraint LocationConstraint)
    (custom_lists : CustomListsSettings) : Constraint ResolvedLocationConstraint :=
  match location with
  | .any => .any
  | .only (.location loc) => .only (.location loc)
  | .only (.customList list_id) =>
      match custom_lists.find? (fun list => list.id == list_id) with
      | some custom_list => .only (.locations custom_list.locations)
      | none => .only (.locations [])

/-- `matches_with_opts` on a resolved location (relay_constraints.rs). -/
def ResolvedLocationConstraint.matches_with_opts :
    ResolvedLocationConstraint → Relay → Bool → Bool
  | .location loc, relay, ignore => loc.matches_with_opts relay ignore
  | .locations locs, relay, ignore =>
      locs.any (fun loc => loc.matches_with_opts relay ignore)

/-- `Constraint<ResolvedLocationConstraint>::matches_with_opts`
(relay_constraints.rs): `Any` matches every relay. -/
def Constraint.location_matches_with_opts :
    Constraint ResolvedLocationConstraint → Relay → Bool → Bool
  | .any, _, _ => true
  | .only c, relay, ignore => c.matches_with_opts relay ignore

/-- `Ownership` (relay_constraints.rs). -/
inductive Ownership
  | mullvadOwned
  | rented
deriving DecidableEq

/-- `Match<Relay> for Ownership` (relay_constraints.rs). -/
def Ownership.matches (o : Ownership) (relay : Relay) : Bool :=
  match o with
  | .mullvadOwned => relay.owned
  | .rented => !relay.owned

/-- `Providers` (relay_constraints.rs); the source stores a `HashSet<String>`,
modelled as a list with membership lookup. -/
structure Providers where
  providers : List String
deriving DecidableEq

/-- `Match<Relay> for Providers` (relay_constraints.rs). -/
def Providers.matches (p : Providers) (relay : Relay) : Bool :=
  p.providers.contains relay.provider

/-- `TransportPort` (relay_constraints.rs). -/
structure TransportPort where
  protocol : TransportProtocol
  port : Constraint Nat
deriving DecidableEq

/-- `SelectedObfuscation` (relay_constraints.rs). -/
inductive SelectedObfuscation
  | auto
  | off
  | udp2tcp
deriving DecidableEq

/-- `impl Intersection for SelectedObfuscation` (relay_constraints.rs lines
1054-1067): `Auto` yields the other side; otherwise both sides must agree. -/
def SelectedObfuscation.intersection :
    SelectedObfuscation → SelectedObfuscation → Option SelectedObfuscation
  | left, .auto => some left
  | .auto, right => some right
  | left, right => if left = right then some left else none

/-- `Udp2TcpObfuscationSettings` (relay_constraints.rs). -/
structure Udp2TcpObfuscationSettings where
  port : Constraint Nat
deriving DecidableEq

/-- `BridgeConstraints` (relay_constraints.rs). -/
structure BridgeConstraints where
  location : Constraint LocationConstraint
  providers : Constraint Providers
  ownership : Constraint Ownership
deriving DecidableEq

/-- Modelled from the spec: minimal shadowsocks proxy configuration
(talpid-types `CustomProxy`, not under src/): destination ip and port. -/
structure CustomProxy where
  ip : String
  port : Nat
deriving DecidableEq

/-- `BridgeSettingsFilter`.  `relay_constraints.rs` (lines 800-805) declares
`Off`, `Normal`, `Custom`; `relay_selector.rs` additionally constructs and
matches a variant `Auto` (lines 157, 689), which is included here. -/
inductive BridgeSettingsFilter
  | off
  | auto
  | normal (settings : BridgeConstraints)
  | custom (settings : Option CustomProxy)
deriving DecidableEq

/-- `WireguardConstraintsFilter` (relay_constraints.rs lines 730-738). -/
structure WireguardConstraintsFilter where
  port : Constraint Nat
  ip_version : Constraint IpVersion
  use_multihop : Constraint Bool
  entry_location : Constraint LocationConstraint
  obfuscation : SelectedObfuscation
  udp2tcp_port : Constraint Udp2TcpObfuscationSettings
deriving DecidableEq

/-- `WireguardConstraintsFilter::new` (relay_constraints.rs lines 740-751). -/
def WireguardConstraintsFilter.new : WireguardConstraintsFilter where
  port := .any
  ip_version := .any
  use_multihop := .any
  entry_location := .any
  obfuscation := .auto
  udp2tcp_port := .any

/-- `impl Intersection for WireguardConstraintsFilter` (relay_constraints.rs
lines 752-767): componentwise meet; `obfuscation` uses the
`SelectedObfuscation` intersection, the other fields are `Constraint` meets. -/
def WireguardConstraintsFilter.intersection
    (a b : WireguardConstraintsFilter) : Option WireguardConstraintsFilter := do
  let port ← a.port.intersection b.port
  let ip_version ← a.ip_version.intersection b.ip_version
  let use_multihop ← a.use_multihop.intersection b.use_multihop
  let entry_location ← a.entry_location.intersection b.entry_location
  let obfuscation ← a.obfuscation.intersection b.obfuscation
  let udp2tcp_port ← a.udp2tcp_port.intersection b.udp2tcp_port
  pure {
    port := port
    ip_version := ip_version
    use_multihop := use_multihop
    entry_location := entry_location
    obfuscation := obfuscation
    udp2tcp_port := udp2tcp_port
  }

/-- `OpenVpnConstraintsFilter` (relay_constraints.rs lines 769-773). -/
structure OpenVpnConstraintsFilter where
  port : Constraint TransportPort
  bridge_settings : Constraint BridgeSettingsFilter
deriving DecidableEq

/-- `OpenVpnConstraintsFilter::new` (relay_constraints.rs lines 775-782). -/
def OpenVpnConstraintsFilter.new : OpenVpnConstraintsFilter where
  port := .any
  bridge_settings := .any

/-- `impl Intersection for OpenVpnConstraintsFilter` (relay_constraints.rs
lines 784-798); `bridge_settings` is a plain `Constraint` meet (the source
notes in a comment that it is not recursive). -/
def OpenVpnConstraintsFilter.intersection
    (a b : OpenVpnConstraintsFilter) : Option OpenVpnConstraintsFilter := do
  let port ← a.port.intersection b.port
  let bridge_settings ← a.bridge_settings.intersection b.bridge_settings
  pure { port := port, bridge_settings := bridge_settings }

/-- `RelayConstraintsFilter` (relay_constraints.rs lines 227-235). -/
structure RelayConstraintsFilter where
  location : Constraint LocationConstraint
  providers : Constraint Providers
  ownership : Constraint Ownership
  tunnel_protocol : Constraint TunnelType
  wireguard_constraints : WireguardConstraintsFilter
  openvpn_constraints : OpenVpnConstraintsFilter
deriving DecidableEq

/-- `RelayConstraintsFilter::new` (relay_constraints.rs lines 237-250). -/
def RelayConstraintsFilter.new : RelayConstraintsFilter where
  location := .any
  providers := .any
  ownership := .any
  tunnel_protocol := .any
  wireguard_constraints := WireguardConstraintsFilter.new
  openvpn_constraints := OpenVpnConstraintsFilter.new

/-- `impl Intersection for RelayConstraintsFilter` (relay_constraints.rs lines
252-271): componentwise meet of all six fields. -/
def RelayConstraintsFilter.intersection
    (a b : RelayConstraintsFilter) : Option RelayConstraintsFilter := do
  let location ← a.location.intersection b.location
  let providers ← a.providers.intersection b.providers
  let ownership ← a.ownership.intersection b.ownership
  let tunnel_protocol ← a.tunnel_protocol.intersection b.tunnel_protocol
  let wireguard_constraints ←
    a.wireguard_constraints.intersection b.wireguard_constraints
  let openvpn_constraints ←
    a.openvpn_constraints.intersection b.openvpn_constraints
  pure {
    location := location
    providers := providers
    ownership := ownership
    tunnel_protocol := tunnel_protocol
    wireguard_constraints := wireguard_constraints
    openvpn_constraints := openvpn_constraints
  }

/-- `WireguardConstraints` (relay_constraints.rs lines 698-728): the user
settings record (no obfuscation fields). -/
structure WireguardConstraints where
  port : Constraint Nat
  ip_version : Constraint IpVersion
  use_multihop : Constraint Bool
  entry_location : Constraint LocationConstraint
deriving DecidableEq

/-- `WireguardConstraints::any` (relay_constraints.rs lines 864-871). -/
def WireguardConstraints.any : WireguardConstraints where
  port := .any
  ip_version := .any
  use_multihop := .any
  entry_location := .any

/-- `WireguardConstraints::multihop` (relay_constraints.rs lines 885-889):
`assert_ne!(self.use_multihop, Constraint::Any)` panics when the constraint is
still `Any` — modelled as `none`; otherwise the result is
`matches!(self.use_multihop, Constraint::Only(true))`. -/
def WireguardConstraints.multihop (c : WireguardConstraints) : Option Bool :=
  match c.use_multihop with
  | .any => none
  | .only b => some b

/-- `Default for WireguardConstraints` (relay_constraints.rs lines 893-902):
`use_multihop` defaults to `Only(false)`. -/
def WireguardConstraints.default : WireguardConstraints where
  port := .any
  ip_version := .any
  use_multihop := .only false
  entry_location := .any

/-- `OpenVpnConstraints` (relay_constraints.rs lines 651-654). -/
structure OpenVpnConstraints where
  port : Constraint TransportPort
deriving DecidableEq

/-- `RelayConstraints` (relay_constraints.rs lines 200-209): the user settings
record. -/
structure RelayConstraints where
  location : Constraint LocationConstraint
  providers : Constraint Providers
  ownership : Constraint Ownership
  tunnel_protocol : Constraint TunnelType
  wireguard_constraints : WireguardConstraints
  openvpn_constraints : OpenVpnConstraints
deriving DecidableEq

/-- `ObfuscationSettings` (relay_constraints.rs lines 1118-1126). -/
structure ObfuscationSettings where
  selected_obfuscation : SelectedObfuscation
  udp2tcp : Udp2TcpObfuscationSettings
deriving DecidableEq

/-- `BridgeType` (relay_constraints.rs lines 982-991). -/
inductive BridgeType
  | normal
  | custom
deriving DecidableEq

/-- `BridgeSettings` (relay_constraints.rs lines 1008-1014). -/
structure BridgeSettings where
  bridge_type : BridgeType
  normal : BridgeConstraints
  custom : Option CustomProxy
deriving DecidableEq

/-- `BridgeState` (relay_constraints.rs lines 1171-1178). -/
inductive BridgeState
  | auto
  | on
  | off
deriving DecidableEq

/-- `InternalBridgeConstraints` (relay_constraints.rs lines 1194-1200). -/
structure InternalBridgeConstraints where
  location : Constraint LocationConstraint
  providers : Constraint Providers
  ownership : Constraint Ownership
  transport_protocol : Constraint TransportProtocol
deriving DecidableEq

/-- Modelled from the spec: a user-provided custom tunnel endpoint
(mullvad-types `CustomTunnelEndpoint`, not under src/); its payload is opaque
to the selector. -/
structure CustomTunnelEndpoint where
  host : String
  port : Nat
deriving DecidableEq

/-- `RelaySettings` (relay_constraints.rs lines 28-31). -/
inductive RelaySettings
  | customTunnelEndpoint (e : CustomTunnelEndpoint)
  | normal (constraints : RelayConstraints)
deriving DecidableEq

/-- `SelectorConfig` (relay_selector.rs lines 90-100). -/
structure SelectorConfig where
  relay_settings : RelaySettings
  custom_lists : CustomListsSettings
  obfuscation_settings : ObfuscationSettings
  bridge_state : BridgeState
  bridge_settings : BridgeSettings
deriving DecidableEq

/-! ## The retry ladder (`RETRY_ORDER`, relay_selector.rs lines 50-81)

Each row is the final value produced by the corresponding typestate-builder
expression from `relay_constraints::builder`.  Note that in this source the
builder never writes `tunnel_protocol`: `wireguard::new()` and
`openvpn::new()` only pick which further setters are exposed, and `build()`
returns the accumulated `RelayConstraintsFilter` unchanged, so every row
leaves `tunnel_protocol = Constraint::Any`. -/

/-- Row 0: `any().build()`. -/
def retryOrderRow0 : RelayConstraintsFilter := RelayConstraintsFilter.new

/-- Row 1: `wireguard::new().build()` — no builder call writes any field. -/
def retryOrderRow1 : RelayConstraintsFilter := RelayConstraintsFilter.new

/-- Row 2: `wireguard::new().port(443).build()` — sets
`wireguard_constraints.port = Only(443)`. -/
def retryOrderRow2 : RelayConstraintsFilter :=
  { RelayConstraintsFilter.new with
    wireguard_constraints := { WireguardConstraintsFilter.new with port := .only 443 } }

/-- Row 3: `wireguard::new().ip_version(V6).build()`. -/
def retryOrderRow3 : RelayConstraintsFilter :=
  { RelayConstraintsFilter.new with
    wireguard_constraints :=
      { WireguardConstraintsFilter.new with ip_version := .only .v6 } }

/-- Row 4: `openvpn::new().transport_protocol(Tcp).port(443).build()` — sets
`openvpn_constraints.port = Only(TransportPort { Tcp, Only(443) })`. -/
def retryOrderRow4 : RelayConstraintsFilter :=
  { RelayConstraintsFilter.new with
    openvpn_constraints :=
      { OpenVpnConstraintsFilter.new with
        port := .only { protocol := .tcp, port := .only 443 } } }

/-- Row 5: `wireguard::new().udp2tcp().build()` — sets
`wireguard_constraints.udp2tcp_port = Only(settings with port Any)`. -/
def retryOrderRow5 : RelayConstraintsFilter :=
  { RelayConstraintsFilter.new with
    wireguard_constraints :=
      { WireguardConstraintsFilter.new with udp2tcp_port := .only { port := .any } } }

/-- Row 6: `wireguard::new().udp2tcp().ip_version(V6).build()`. -/
def retryOrderRow6 : RelayConstraintsFilter :=
  { RelayConstraintsFilter.new with
    wireguard_constraints :=
      { WireguardConstraintsFilter.new with
        udp2tcp_port := .only { port := .any }
        ip_version := .only .v6 } }

/-- Row 7: `openvpn::new().transport_protocol(Tcp).bridge().build()` — sets
`openvpn_constraints.port = Only(TransportPort { Tcp, Any })` and
`bridge_settings = Only(Normal(all-Any bridge constraints))`. -/
def retryOrderRow7 : RelayConstraintsFilter :=
  { RelayConstraintsFilter.new with
    openvpn_constraints :=
      { port := .only { protocol := .tcp, port := .any }
        bridge_settings :=
          .only (.normal { location := .any, providers := .any, ownership := .any }) } }

/-- `RETRY_ORDER` (relay_selector.rs lines 50-81). -/
def RETRY_ORDER : List RelayConstraintsFilter :=
  [retryOrderRow0, retryOrderRow1, retryOrderRow2, retryOrderRow3,
   retryOrderRow4, retryOrderRow5, retryOrderRow6, retryOrderRow7]

/-! ## Relay list data (mullvad-types/src/relay_list.rs, not under src/) -/

/-- Modelled from the spec: one OpenVPN port/protocol pair of the catalog. -/
structure OpenVpnEndpoint where
  port : Nat
  protocol : TransportProtocol
deriving DecidableEq

/-- Modelled from the spec: the catalog's `openvpn` block. -/
structure OpenVpnEndpointData where
  ports : List OpenVpnEndpoint
deriving DecidableEq

/-- Modelled from the spec: the catalog's `wireguard` block (port ranges and
allowed udp2tcp ports). -/
structure WireguardEndpointData where
  port_ranges : List (Nat × Nat)
  udp2tcp_ports : List Nat
deriving DecidableEq

/-- Modelled from the spec: one shadowsocks entry of the catalog's bridge
block. -/
structure ShadowsocksEndpointData where
  port : Nat
  protocol : TransportProtocol
deriving DecidableEq

/-- Modelled from the spec: `to_proxy_settings` attaches the relay's entry IP
to the shadowsocks entry. -/
def ShadowsocksEndpointData.to_proxy_settings
    (e : ShadowsocksEndpointData) (ip : String) : CustomProxy :=
  { ip := ip, port := e.port }

/-- Modelled from the spec: the catalog's bridge block. -/
structure BridgeEndpointData where
  shadowsocks : List ShadowsocksEndpointData
deriving DecidableEq

/-- Modelled from the spec: a socket address (ip, port); the ip is kept
abstract as a string. -/
structure SocketAddr where
  ip : String
  port : Nat
deriving DecidableEq

/-- Modelled from the spec: the peer part of a WireGuard endpoint
(talpid-types, not under src/); only the peer socket address is needed by the
obfuscator selection. -/
structure WireguardPeer where
  endpoint : SocketAddr
deriving DecidableEq

/-- Modelled from the spec: `MullvadWireguardEndpoint` (not under src/). -/
structure MullvadWireguardEndpoint where
  peer : WireguardPeer
deriving DecidableEq

/-- Modelled from the spec: `ObfuscatorConfig` (talpid-types, not under
src/). -/
inductive ObfuscatorConfig
  | udp2tcpConfig (endpoint : SocketAddr)
deriving DecidableEq

/-- `SelectedObfuscator` (relay_selector.rs lines 211-215). -/
structure SelectedObfuscator where
  config : ObfuscatorConfig
  relay : Relay
deriving DecidableEq

/-- `Error` (crate::error, not under src/); the spec's error taxonomy. -/
inductive Error
  | noRelay
  | noBridge
  | missingCustomBridgeSettings
deriving DecidableEq

/-- `SelectedBridge` (relay_selector.rs lines 205-209). -/
inductive SelectedBridge
  | normal (settings : CustomProxy) (relay : Relay)
  | custom (settings : CustomProxy)
deriving DecidableEq

/-- `GetRelay` (relay_selector.rs lines 188-203); the concrete
`MullvadEndpoint` details are abstracted away except for the parts the claims
touch. -/
inductive GetRelay
  | wireguard (endpoint : MullvadWireguardEndpoint) (exit : Relay)
      (entry : Option Relay) (obfuscator : Option SelectedObfuscator)
  | openvpn (exit : Relay) (bridge : Option SelectedBridge)
  | custom (e : CustomTunnelEndpoint)
deriving DecidableEq

/-! ## matcher.rs -/

/-- `filter_on_active` (matcher.rs). -/
def filter_on_active (relay : Relay) : Bool := relay.active

/-- `filter_on_location` (matcher.rs): the first location pass always ignores
`include_in_country`. -/
def filter_on_location (filter : Constraint ResolvedLocationConstraint)
    (relay : Relay) : Bool :=
  filter.location_matches_with_opts relay true

/-- `filter_on_ownership` (matcher.rs). -/
def filter_on_ownership (filter : Constraint Ownership) (relay : Relay) : Bool :=
  filter.matchesWith Ownership.matches relay

/-- `filter_on_providers` (matcher.rs). -/
def filter_on_providers (filter : Constraint Providers) (relay : Relay) : Bool :=
  filter.matchesWith Providers.matches relay

/-- `filter_openvpn` (matcher.rs). -/
def filter_openvpn (relay : Relay) : Bool :=
  match relay.endpoint_data with
  | .openvpn => true
  | _ => false

/-- `filter_wireguard` (matcher.rs). -/
def filter_wireguard (relay : Relay) : Bool :=
  match relay.endpoint_data with
  | .wireguard _ => true
  | _ => false

/-- `filter_bridge` (matcher.rs). -/
def filter_bridge (relay : Relay) : Bool :=
  match relay.endpoint_data with
  | .bridge => true
  | _ => false

/-- `are_distinct_relays` (matcher.rs): two relays are distinct when their
hostnames differ. -/
def are_distinct_relays (peer relay : Relay) : Bool :=
  peer.hostname != relay.hostname

/-- `openvpn_filter_on_port` (matcher.rs lines 327-342). -/
def openvpn_filter_on_port (port : Constraint TransportPort)
    (endpoint : OpenVpnEndpointData) : Bool :=
  match port with
  | .any => true
  | .only transport_port =>
      (endpoint.ports.filter
        (fun e => e.protocol == transport_port.protocol)).any
        (fun e =>
          match transport_port.port with
          | .any => true
          | .only p => p == e.port)

/-- `WireguardMatcher` (matcher.rs lines 138-147). -/
structure WireguardMatcher where
  peer : Option Relay
  port : Constraint Nat
  ip_version : Constraint IpVersion
  data : WireguardEndpointData
deriving DecidableEq

/-- `WireguardMatcher::new` (matcher.rs lines 149-157). -/
def WireguardMatcher.new (constraints : WireguardConstraintsFilter)
    (data : WireguardEndpointData) : WireguardMatcher where
  peer := none
  port := constraints.port
  ip_version := constraints.ip_version
  data := data

/-- `EndpointMatcher for WireguardMatcher` (matcher.rs lines 224-231). -/
def WireguardMatcher.is_matching_relay (m : WireguardMatcher)
    (relay : Relay) : Bool :=
  match m.peer with
  | some peer => filter_wireguard relay && are_distinct_relays peer relay
  | none => filter_wireguard relay

/-- `OpenVpnMatcher` (matcher.rs lines 233-237). -/
structure OpenVpnMatcher where
  constraints : OpenVpnConstraintsFilter
  data : OpenVpnEndpointData
deriving DecidableEq

/-- `OpenVpnMatcher::new` (matcher.rs lines 239-254): when the port constraint
is `Any` and the bridge state is `On`, the constraint is tightened to
`Only(TransportPort { Tcp, Any })`. -/
def OpenVpnMatcher.new (constraints : OpenVpnConstraintsFilter)
    (data : OpenVpnEndpointData) (bridge_state : BridgeState) : OpenVpnMatcher :=
  let constraints :=
    if constraints.port.is_any && bridge_state == .on then
      { constraints with port := .only { protocol := .tcp, port := .any } }
    else constraints
  { constraints := constraints, data := data }

/-- `EndpointMatcher for OpenVpnMatcher` (matcher.rs lines 111-115). -/
def OpenVpnMatcher.is_matching_relay (m : OpenVpnMatcher) (relay : Relay) : Bool :=
  filter_openvpn relay && openvpn_filter_on_port m.constraints.port m.data

/-- `AnyTunnelMatcher` (matcher.rs lines 116-124). -/
structure AnyTunnelMatcher where
  wireguard : WireguardMatcher
  openvpn : OpenVpnMatcher
  tunnel_type : Constraint TunnelType
deriving DecidableEq

/-- `EndpointMatcher for AnyTunnelMatcher` (matcher.rs lines 126-136). -/
def AnyTunnelMatcher.is_matching_relay (m : AnyTunnelMatcher)
    (relay : Relay) : Bool :=
  match m.tunnel_type with
  | .any => m.wireguard.is_matching_relay relay || m.openvpn.is_matching_relay relay
  | .only .openvpn => m.openvpn.is_matching_relay relay
  | .only .wireguard => m.wireguard.is_matching_relay relay

/-- `RelayMatcher<T>` (matcher.rs lines 18-29); the `EndpointMatcher` trait
object is modelled as a boolean predicate field. -/
structure RelayMatcher where
  locations : Constraint ResolvedLocationConstraint
  providers : Constraint Providers
  ownership : Constraint Ownership
  endpoint_matcher : Relay → Bool

/-- `RelayMatcher::filter_matching_relay_list` (matcher.rs lines 72-100): the
six-step shortlist, then a second location pass with
`ignore_include_in_country` waived exactly when the shortlist contains no
relay with `include_in_country = true`. -/
def RelayMatcher.filter_matching_relay_list (m : RelayMatcher)
    (relays : List Relay) : List Relay :=
  let shortlist :=
    ((((relays.filter filter_on_active).filter
        (filter_on_location m.locations)).filter
        (filter_on_ownership m.ownership)).filter
        (filter_on_providers m.providers)).filter m.endpoint_matcher
  let ignore_include_in_country := !(shortlist.any (fun r => r.include_in_country))
  shortlist.filter
    (fun r => m.locations.location_matches_with_opts r ignore_include_in_country)

/-- `RelayMatcher::new` (matcher.rs lines 31-59): the `AnyTunnelMatcher`
variant. -/
def RelayMatcher.new (constraints : RelayConstraintsFilter)
    (openvpn_data : OpenVpnEndpointData) (bridge_state : BridgeState)
    (wireguard_data : WireguardEndpointData)
    (custom_lists : CustomListsSettings) : RelayMatcher where
  locations := ResolvedLocationConstraint.from_constraint constraints.location custom_lists
  providers := constraints.providers
  ownership := constraints.ownership
  endpoint_matcher :=
    (AnyTunnelMatcher.mk
      (WireguardMatcher.new constraints.wireguard_constraints wireguard_data)
      (OpenVpnMatcher.new constraints.openvpn_constraints openvpn_data bridge_state)
      constraints.tunnel_protocol).is_matching_relay

/-- `WireguardMatcher::new_matcher` (matcher.rs lines 159-175). -/
def WireguardMatcher.new_matcher (constraints : RelayConstraintsFilter)
    (data : WireguardEndpointData)
    (custom_lists : CustomListsSettings) : RelayMatcher where
  locations := ResolvedLocationConstraint.from_constraint constraints.location custom_lists
  providers := constraints.providers
  ownership := constraints.ownership
  endpoint_matcher :=
    (WireguardMatcher.new constraints.wireguard_constraints data).is_matching_relay

/-- `BridgeMatcher::new_matcher` (matcher.rs lines 259-276). -/
def BridgeMatcher.new_matcher (relay_constraints : InternalBridgeConstraints)
    (custom_lists : CustomListsSettings) : RelayMatcher where
  locations :=
    ResolvedLocationConstraint.from_constraint relay_constraints.location custom_lists
  providers := relay_constraints.providers
  ownership := relay_constraints.ownership
  endpoint_matcher := filter_bridge

/-! ## helpers.rs -/

/-- The inner `find` of `pick_random_relay_fn` (helpers.rs lines 43-51): the
mutable `i` starts at the drawn value and each step performs
`i = i.saturating_sub(weight_fn(relay)); i == 0` — natural subtraction is
exactly `saturating_sub`. -/
def findRoulette (weight_fn : α → Nat) : List α → Nat → Option α
  | [], _ => none
  | relay :: rest, i =>
      let i2 := i - weight_fn relay
      if i2 = 0 then some relay else findRoulette weight_fn rest i2

/-- `pick_random_relay_fn` (helpers.rs lines 32-54).  The draw `d` models the
thread RNG: with zero total weight the source does `relays.choose(&mut rng)`
(uniform, `None` on an empty slice), modelled as `get? (d % length)`;
otherwise `rng.gen_range(1..=total_weight)` is modelled as
`d % total_weight + 1` and roulette-wheel selection runs. -/
def pick_random_relay_fn (relays : List α) (weight_fn : α → Nat)
    (d : Nat) : Option α :=
  let total_weight := (relays.map weight_fn).sum
  if total_weight = 0 then
    relays.get? (d % relays.length)
  else
    findRoulette weight_fn relays (d % total_weight + 1)

/-- `pick_random_relay` (helpers.rs lines 24-26): `pick_random_relay_fn` with
the relay's own `weight` field. -/
def pick_random_relay (relays : List Relay) (d : Nat) : Option Relay :=
  pick_random_relay_fn relays (fun relay => relay.weight) d

/-- `pick_random_bridge` (helpers.rs lines 58-74): `None` unless the relay is
a bridge; otherwise a uniform shadowsocks entry with the relay's entry IPv4
address attached. -/
def pick_random_bridge (data : BridgeEndpointData) (relay : Relay)
    (d : Nat) : Option CustomProxy :=
  if relay.endpoint_data ≠ RelayEndpointData.bridge then none
  else
    (data.shadowsocks.get? (d % data.shadowsocks.length)).map
      (fun e => e.to_proxy_settings relay.ipv4_addr_in)

/-- Modelled from the spec: `helpers::random(slice, exclude)` — used by
`get_wireguard_multihop_config` but not present in the provided `helpers.rs` —
"returns a uniform element from `slice` excluding `exclude`". -/
def randomExcluding (slice : List α) [DecidableEq α] (exclude : α)
    (d : Nat) : Option α :=
  let remaining := slice.filter (fun x => x ≠ exclude)
  remaining.get? (d % remaining.length)

/-- `get_udp2tcp_obfuscator` (helpers.rs lines 83-107): with a pinned port the
first catalog port equal to it is used (`None` if absent); otherwise a
uniform catalog port (draw `d`).  The endpoint is the peer's IP with the
chosen udp2tcp port. -/
def get_udp2tcp_obfuscator (udp2tcp_ports : List Nat)
    (obfuscation_settings : Udp2TcpObfuscationSettings) (relay : Relay)
    (endpoint : MullvadWireguardEndpoint) (d : Nat) : Option SelectedObfuscator :=
  let udp2tcp_endpoint :=
    if obfuscation_settings.port.is_only then
      udp2tcp_ports.find?
        (fun candidate => obfuscation_settings.port == Constraint.only candidate)
    else
      udp2tcp_ports.get? (d % udp2tcp_ports.length)
  (udp2tcp_endpoint.map
      (fun port => ObfuscatorConfig.udp2tcpConfig
        { ip := endpoint.peer.endpoint.ip, port := port })).map
    (fun config => { config := config, relay := relay })

/-- `should_use_bridge` (helpers.rs lines 110-118): decided by the bridge
state alone — `On` is true, `Off` and `Auto` are false.  (The call site in
`relay_selector.rs` passes the query's `bridge_settings` constraint instead;
the two files disagree, and the definition in `helpers.rs` is kept.) -/
def should_use_bridge (bridge_state : BridgeState) : Bool :=
  match bridge_state with
  | .on => true
  | .off => false
  | .auto => false

/-! ## relay_selector.rs -/

/-- `From<SelectorConfig> for RelayConstraintsFilter` (relay_selector.rs lines
116-186), applied to the payload of `RelaySettings::Normal` (the source
panics on `CustomTunnelEndpoint`, which `get_relay_with_order` short-circuits
before this conversion runs).  The Wireguard filter copies the user's
wireguard constraints and adds the obfuscation settings, always pinning
`udp2tcp_port = Only(settings.udp2tcp)`; the OpenVPN filter encodes the
bridge state/settings as a pinned `bridge_settings` constraint. -/
def selectorConfigToFilter (config : SelectorConfig)
    (relay_constraints : RelayConstraints) : RelayConstraintsFilter :=
  let wg := relay_constraints.wireguard_constraints
  let wireguard_constraints : WireguardConstraintsFilter :=
    { port := wg.port
      ip_version := wg.ip_version
      use_multihop := wg.use_multihop
      entry_location := wg.entry_location
      obfuscation := config.obfuscation_settings.selected_obfuscation
      udp2tcp_port := .only config.obfuscation_settings.udp2tcp }
  let openvpn_constraints : OpenVpnConstraintsFilter :=
    { port := relay_constraints.openvpn_constraints.port
      bridge_settings :=
        match config.bridge_state with
        | .on =>
            match config.bridge_settings.bridge_type with
            | .normal => .only (.normal config.bridge_settings.normal)
            | .custom => .only (.custom config.bridge_settings.custom)
        | .auto => .only .auto
        | .off => .only .off }
  { location := relay_constraints.location
    providers := relay_constraints.providers
    ownership := relay_constraints.ownership
    tunnel_protocol := relay_constraints.tunnel_protocol
    wireguard_constraints := wireguard_constraints
    openvpn_constraints := openvpn_constraints }

/-- The `retry_order.iter().cycle().filter_map(f).nth(n)` iterator of
`get_relay_with_order` (relay_selector.rs lines 350-355), with explicit fuel:
`cur` is the remaining part of the current pass over `l`; an exhausted pass
refills from `l` (an empty `l` cycles to nothing).  Each step consumes one
unit of fuel; `none` for insufficient fuel.  The nth surviving value of the
cycled stream is returned. -/
def cycleFilterMapNth (f : α → Option β) (l : List α) :
    List α → Nat → Nat → Option β
  | _, _, 0 => none
  | [], n, fuel + 1 => if l.isEmpty then none else cycleFilterMapNth f l l n fuel
  | c :: rest, n, fuel + 1 =>
      match f c with
      | none => cycleFilterMapNth f l rest n fuel
      | some b =>
          match n with
          | 0 => some b
          | m + 1 => cycleFilterMapNth f l rest m fuel

/-- The effective constraints computed by `get_relay_with_order`
(relay_selector.rs lines 350-355): the `retry_attempt`-th element of the
cycled retry order rows intersected with the user's preferences, skipping
rows whose intersection is `None`.  `none` means the source's iterator never
produces the element (insufficient fuel stands for the unbounded search). -/
def effectiveConstraints (retry_order : List RelayConstraintsFilter)
    (user_preferences : RelayConstraintsFilter) (retry_attempt : Nat)
    (fuel : Nat) : Option RelayConstraintsFilter :=
  cycleFilterMapNth
    (fun constraint => constraint.intersection user_preferences)
    retry_order retry_order retry_attempt fuel

/-- `RelaySelector::get_relay_with_order` (relay_selector.rs lines 334-358).
A custom tunnel endpoint short-circuits before the catalog lock, the user
preference conversion and the retry ladder; otherwise the effective
constraints are computed and handed to `get_relay_inner`, which is passed as
an explicit function so that the theorems can quantify over it.  The outer
`none` models a call that produces no value (the source's unbounded cycled
iterator yielding nothing). -/
def getRelayWithOrder (config : SelectorConfig) (parsed_relays : List Relay)
    (retry_order : List RelayConstraintsFilter) (retry_attempt : Nat)
    (fuel : Nat)
    (inner : RelayConstraintsFilter → List Relay → SelectorConfig →
      Except Error GetRelay) : Option (Except Error GetRelay) :=
  match config.relay_settings with
  | .customTunnelEndpoint custom_relay => some (.ok (.custom custom_relay))
  | .normal relay_constraints =>
      let user_preferences := selectorConfigToFilter config relay_constraints
      match effectiveConstraints retry_order user_preferences retry_attempt fuel with
      | none => none
      | some constraints => some (inner constraints parsed_relays config)

/-- `RelaySelector::get_tunnel_endpoints` (relay_selector.rs lines 531-549,
the non-Android version). -/
def get_tunnel_endpoints (parsed_relays : List Relay)
    (relay_constraints : RelayConstraintsFilter)
    (openvpn_data : OpenVpnEndpointData) (bridge_state : BridgeState)
    (wireguard_data : WireguardEndpointData)
    (custom_lists : CustomListsSettings) : List Relay :=
  (RelayMatcher.new relay_constraints openvpn_data bridge_state wireguard_data
    custom_lists).filter_matching_relay_list parsed_relays

/-- The match over `(exit_candidates.as_slice(), entry_candidates.as_slice())`
in `get_wireguard_multihop_config` (relay_selector.rs lines 587-602).  The
first arm fails on equal singletons; the second and third arms exclude the
forced relay of the singleton side; the last (the fall-through arm, here
`multihopDefaultArm`) samples the exit by weight and the entry uniformly
excluding the exit.  `d1` and `d2` are the RNG draws. -/
def multihopDefaultArm (exits entrys : List Relay) (d1 d2 : Nat) :
    Option (Relay × Relay) :=
  match pick_random_relay exits d1 with
  | none => none
  | some exit => (randomExcluding entrys exit d2).map (fun entry => (exit, entry))

/-- The ordered guard fall-through of the source's match, written with the
final arm (`multihopDefaultArm`) shared between the shapes that reach it. -/
def multihopPick (exits entrys : List Relay) (d1 d2 : Nat) :
    Option (Relay × Relay) :=
  match exits, entrys with
  | [exit], [entry] =>
      if exit = entry then none
      else if List.contains [exit] entry then
        (randomExcluding [exit] entry d1).map (fun x => (x, entry))
      else if List.contains [entry] exit then
        (randomExcluding [entry] exit d2).map (fun e => (exit, e))
      else multihopDefaultArm [exit] [entry] d1 d2
  | exits, [entry] =>
      if exits.contains entry then
        (randomExcluding exits entry d1).map (fun x => (x, entry))
      else multihopDefaultArm exits [entry] d1 d2
  | [exit], entrys =>
      if entrys.contains exit then
        (randomExcluding entrys exit d2).map (fun e => (exit, e))
      else multihopDefaultArm [exit] entrys d1 d2
  | exits, entrys => multihopDefaultArm exits entrys d1 d2

/-- `RelaySelector::get_wireguard_multihop_config` (relay_selector.rs lines
558-606): the entry query replaces the location with the wireguard
`entry_location`; both candidate lists come from `WireguardMatcher`
matchers; every `None` of the selection match maps to `Error::NoRelay`. -/
def get_wireguard_multihop_config (query : RelayConstraintsFilter)
    (custom_lists : CustomListsSettings) (wg_data : WireguardEndpointData)
    (parsed_relays : List Relay) (d1 d2 : Nat) : Except Error (Relay × Relay) :=
  let entry_relay_query :=
    { query with location := query.wireguard_constraints.entry_location }
  let exit_matcher := WireguardMatcher.new_matcher query wg_data custom_lists
  let entry_matcher :=
    WireguardMatcher.new_matcher entry_relay_query wg_data custom_lists
  let exit_candidates := exit_matcher.filter_matching_relay_list parsed_relays
  let entry_candidates := entry_matcher.filter_matching_relay_list parsed_relays
  match multihopPick exit_candidates entry_candidates d1 d2 with
  | some (exit, entry) => .ok (exit, entry)
  | none => .error .noRelay

/-- `RelaySelector::get_obfuscator` (relay_selector.rs lines 608-623):
`Off`/`Auto` yield no obfuscator; `Udp2Tcp` delegates to
`get_udp2tcp_obfuscator`.  The call site passes the query's
`udp2tcp_port : Constraint<Udp2TcpObfuscationSettings>` where `helpers.rs`
declares a `&Udp2TcpObfuscationSettings` parameter (the two files disagree);
the constraint is unwrapped here, `Any` standing for defaulted settings with
an unpinned port. -/
def get_obfuscator (query : RelayConstraintsFilter) (udp2tcp_ports : List Nat)
    (relay : Relay) (endpoint : MullvadWireguardEndpoint)
    (d : Nat) : Option SelectedObfuscator :=
  match query.wireguard_constraints.obfuscation with
  | .off => none
  | .auto => none
  | .udp2tcp =>
      let obfuscation_settings :=
        match query.wireguard_constraints.udp2tcp_port with
        | .only settings => settings
        | .any => { port := .any }
      get_udp2tcp_obfuscator udp2tcp_ports obfuscation_settings relay endpoint d

/-- `RelaySelector::get_proximate_bridge` (relay_selector.rs lines 715-754).
`dist` abstracts the floating point great-circle distance from the reference
location, already truncated as in the source's `as usize`/`as u64` casts.
The candidates are sorted by distance, the closest five are kept, anything
farther than 1500 km is dropped, and the weight of a kept relay is
`1 + (greatest_distance - distance)`. -/
def get_proximate_bridge (relays : List Relay) (dist : Relay → Nat)
    (d : Nat) : Option Relay :=
  let matching_relays :=
    (((relays.map (fun relay => (relay, dist relay))).mergeSort
        (fun a b => a.2 ≤ b.2)).take 5).filter
      (fun rd => rd.2 ≤ 1500)
  match (matching_relays.map (fun rd => rd.2)).max? with
  | none => none
  | some greatest_distance =>
      (pick_random_relay_fn matching_relays
          (fun rd => 1 + (greatest_distance - rd.2)) d).map
        (fun rd => rd.1)

/-- `RelaySelector::get_proxy_settings` (relay_selector.rs lines 696-712):
filter bridges with the `BridgeMatcher`, pick proximity-biased when a
reference location is available (`near` carries the abstracted distance
function) and weight-uniform otherwise, then pick a shadowsocks endpoint of
the chosen relay. -/
def get_proxy_settings (parsed_relays : List Relay)
    (bridge_data : BridgeEndpointData)
    (constraints : InternalBridgeConstraints) (near : Option (Relay → Nat))
    (custom_lists : CustomListsSettings) (d1 d2 : Nat) :
    Option (CustomProxy × Relay) :=
  let matcher := BridgeMatcher.new_matcher constraints custom_lists
  let relays := matcher.filter_matching_relay_list parsed_relays
  let relay :=
    match near with
    | some dist => get_proximate_bridge relays dist d1
    | none => pick_random_relay relays d1
  match relay with
  | none => none
  | some relay =>
      (pick_random_bridge bridge_data relay d2).map
        (fun bridge => (bridge, relay))

/-- `RelaySelector::get_bridge_for` (relay_selector.rs lines 664-691):
`Normal` settings run the bridge matcher near the given location; `Custom`
settings are used as-is; `Off` and `Auto` yield no bridge. -/
def get_bridge_for (query : BridgeSettingsFilter) (location : Location)
    (transport_protocol : TransportProtocol) (parsed_relays : List Relay)
    (bridge_data : BridgeEndpointData) (custom_lists : CustomListsSettings)
    (dist : Location → Relay → Nat) (d1 d2 : Nat) : Option SelectedBridge :=
  match query with
  | .normal settings =>
      let bridge_constraints : InternalBridgeConstraints :=
        { location := settings.location
          providers := settings.providers
          ownership := settings.ownership
          transport_protocol := .only transport_protocol }
      (get_proxy_settings parsed_relays bridge_data bridge_constraints
          (some (dist location)) custom_lists d1 d2).map
        (fun sr => SelectedBridge.normal sr.1 sr.2)
  | .custom settings => settings.map SelectedBridge.custom
  | .off => none
  | .auto => none

/-- `RelaySelector::get_bridge` (relay_selector.rs lines 638-662): UDP is
rejected with `Error::NoBridge`; over TCP a missing relay location is
`Error::NoRelay`, otherwise the (possibly empty) result of `get_bridge_for`
is returned as `Ok`. -/
def get_bridge (query : BridgeSettingsFilter) (relay : Relay)
    (protocol : TransportProtocol) (parsed_relays : List Relay)
    (bridge_data : BridgeEndpointData) (custom_lists : CustomListsSettings)
    (dist : Location → Relay → Nat) (d1 d2 : Nat) :
    Except Error (Option SelectedBridge) :=
  match protocol with
  | .udp => .error .noBridge
  | .tcp =>
      match relay.location with
      | none => .error .noRelay
      | some location =>
          .ok (get_bridge_for query location .tcp parsed_relays bridge_data
            custom_lists dist d1 d2)

/-! ## Spec-side characterizations and concrete sample data -/

/-- The spec's description of the roulette wheel, stated in the spec's words
for comparison with `findRoulette`: after drawing `i`, return the first relay
at which the running sum of the weights reaches at least `i` (the first index
`k` with `i ≤ weight(l[0]) + ... + weight(l[k])`). -/
def roulette_prefix_spec (weight_fn : α → Nat) (l : List α) (i : Nat) : Option α :=
  ((List.range l.length).find? fun k =>
    decide (i ≤ ((l.take (k + 1)).map weight_fn).sum)).bind fun k => l.get? k

/-- A visible (include_in_country) active WireGuard relay, used by concrete
witnesses and counterexamples. -/
def sampleRelayOne : Relay where
  hostname := "se-got-wg-001"
  ipv4_addr_in := "185.213.154.68"
  ipv6_addr_in := none
  include_in_country := true
  active := true
  owned := true
  provider := "31173"
  weight := 100
  endpoint_data := .wireguard "pubkey-one"
  location := some { country_code := "se", city_code := "got" }

/-- A hidden (`include_in_country = false`) active WireGuard relay in the same
city as `sampleRelayOne`. -/
def sampleRelayTwo : Relay where
  hostname := "se-got-wg-002"
  ipv4_addr_in := "185.213.154.69"
  ipv6_addr_in := none
  include_in_country := false
  active := true
  owned := true
  provider := "31173"
  weight := 100
  endpoint_data := .wireguard "pubkey-two"
  location := some { country_code := "se", city_code := "got" }

/-- An empty-ish catalog wireguard block with udp2tcp ports 80 and 443. -/
def sampleWgData : WireguardEndpointData where
  port_ranges := [(53, 53), (4000, 33433)]
  udp2tcp_ports := [80, 443]

/-- A catalog openvpn block with a single TCP/443 endpoint. -/
def sampleOvpnData : OpenVpnEndpointData where
  ports := [{ port := 443, protocol := .tcp }]

/-- A WireGuard endpoint whose peer sits at 10.64.0.1:51820. -/
def sampleEndpoint : MullvadWireguardEndpoint where
  peer := { endpoint := { ip := "10.64.0.1", port := 51820 } }

/-- A query pinning obfuscation to Udp2Tcp with udp2tcp port 80. -/
def sampleUdp2tcpQuery : RelayConstraintsFilter :=
  { RelayConstraintsFilter.new with
    wireguard_constraints :=
      { WireguardConstraintsFilter.new with
        obfuscation := .udp2tcp
        udp2tcp_port := .only { port := .only 80 } } }

/-- A query with obfuscation explicitly `Off`. -/
def sampleOffQuery : RelayConstraintsFilter :=
  { RelayConstraintsFilter.new with
    wireguard_constraints :=
      { WireguardConstraintsFilter.new with obfuscation := .off } }

/-- The country-level matcher used by the C2 witness: Sweden, otherwise
unconstrained, WireGuard endpoints. -/
def sampleCountryMatcher : RelayMatcher where
  locations := .only (.location (.country "se"))
  providers := .any
  ownership := .any
  endpoint_matcher := filter_wireguard

/-- A bridge relay for the bridge-selection claims. -/
def sampleBridgeRelay : Relay where
  hostname := "se-sto-br-001"
  ipv4_addr_in := "185.213.154.117"
  ipv6_addr_in := none
  include_in_country := true
  active := true
  owned := true
  provider := "31173"
  weight := 100
  endpoint_data := .bridge
  location := some { country_code := "se", city_code := "sto" }

/-- A catalog bridge block with one shadowsocks endpoint. -/
def sampleBridgeData : BridgeEndpointData where
  shadowsocks := [{ port := 443, protocol := .tcp }]

/-! ## Theorems -/

/-- C9: `SelectedObfuscation::Auto` is a two-sided identity for
`SelectedObfuscation::intersection`: `Auto ∩ x = x ∩ Auto = Some(x)` for every
`x`; `x ∩ x = Some(x)`; and any two distinct values both different from
`Auto` intersect to `None`. -/
theorem selected_obfuscation_auto_identity :
    ∀ x y : SelectedObfuscation,
      SelectedObfuscation.intersection .auto x = some x ∧
      SelectedObfuscation.intersection x .auto = some x ∧
      SelectedObfuscation.intersection x x = some x ∧
      (x ≠ .auto → y ≠ .auto → x ≠ y →
        SelectedObfuscation.intersection x y = none) := by
  intro x y
  cases x <;> cases y <;> decide

/-- Witness for C9 at concrete inputs: `Off ∩ Udp2Tcp = None` with every
hypothesis discharged at `x = Off`, `y = Udp2Tcp`. -/
theorem selected_obfuscation_auto_identity_witness :
    SelectedObfuscation.intersection .off .udp2tcp = none ∧
    SelectedObfuscation.intersection .auto .off = some .off :=
  ⟨(selected_obfuscation_auto_identity .off .udp2tcp).2.2.2
      (by decide) (by decide) (by decide),
   (selected_obfuscation_auto_identity .off .udp2tcp).1⟩

/-- C4 counterexample: the claim says a `use_multihop` that is still
`Constraint::Any` is read as `Only(false)` (i.e. the accessor yields
`false`); on the source the accessor `assert_ne!`-panics instead (modelled as
`none`), so at `WireguardConstraints::any()` the accessor does not produce
`false`. -/
theorem multihop_accessor_any_not_false :
    WireguardConstraints.any.multihop = none ∧
    (some false : Option Bool) ≠ none := by
  exact ⟨rfl, by decide⟩

/-- C4 (amended): reading `use_multihop` for selection panics
(`assert_ne!`, modelled as `none`) when the merged constraint is still `Any`;
for `Only(b)` the accessor yields `b`, so selection proceeds with multihop
enabled exactly for `Only(true)`. -/
theorem multihop_accessor_spec :
    ∀ (port : Constraint Nat) (ipv : Constraint IpVersion)
      (entry : Constraint LocationConstraint) (b : Bool),
      (WireguardConstraints.mk port ipv .any entry).multihop = none ∧
      (WireguardConstraints.mk port ipv (.only b) entry).multihop = some b :=
  fun _ _ _ _ => ⟨rfl, rfl⟩

/-- C8: with `RelaySettings::CustomTunnelEndpoint(e)`, `get_relay_with_order`
returns `Ok(GetRelay::Custom(e))` for every catalog, retry order, retry
attempt, fuel and inner selection function — the result does not depend on
any of them, which is the shallow-embedding statement of "without consulting
the catalog, the retry ladder, or any matcher, and without modifying any
state". -/
theorem custom_tunnel_endpoint_short_circuit :
    ∀ (e : CustomTunnelEndpoint) (cls : CustomListsSettings)
      (obf : ObfuscationSettings) (bs : BridgeState) (bset : BridgeSettings)
      (parsed_relays : List Relay) (retry_order : List RelayConstraintsFilter)
      (retry_attempt fuel : Nat)
      (inner : RelayConstraintsFilter → List Relay → SelectorConfig →
        Except Error GetRelay),
      getRelayWithOrder
        { relay_settings := .customTunnelEndpoint e
          custom_lists := cls
          obfuscation_settings := obf
          bridge_state := bs
          bridge_settings := bset }
        parsed_relays retry_order retry_attempt fuel inner =
          some (.ok (.custom e)) :=
  fun _ _ _ _ _ _ _ _ _ _ => rfl

/-- C1: evaluating the retry ladder at the claim's instance.  With a fully
unconstrained user preference record and `retry_attempt = 2`, the effective
constraints are exactly row 2 of `RETRY_ORDER`; that row pins the WireGuard
port to 443 but leaves `tunnel_protocol = Constraint::Any` — the typestate
builder of this source never writes `tunnel_protocol`, so row 2 is not
"WireGuard with port 443" as the claim describes it. -/
theorem retry_ladder_attempt2_row_not_wireguard :
    effectiveConstraints RETRY_ORDER RelayConstraintsFilter.new 2 8 =
      some retryOrderRow2 ∧
    retryOrderRow2.wireguard_constraints.port = Constraint.only 443 ∧
    retryOrderRow2.tunnel_protocol = Constraint.any := by
  exact ⟨rfl, rfl, rfl⟩

/-- Pointwise-equal predicates find the same element. -/
theorem find?_ext {α : Type} (l : List α) (p q : α → Bool)
    (h : ∀ a ∈ l, p a = q a) : l.find? p = l.find? q := by
  induction l with
  | nil => rfl
  | cons a t ih =>
      simp only [List.find?]
      rw [h a (by simp)]
      cases q a with
      | true => rfl
      | false => exact ih (fun b hb => h b (by simp [hb]))

/-- Searching a port list for the pinned value finds exactly the pinned value
when present. -/
theorem find_pinned_port (ports : List Nat) (p : Nat) :
    (ports.find? fun candidate =>
      (Constraint.only p : Constraint Nat) == Constraint.only candidate) =
    if p ∈ ports then some p else none := by
  induction ports with
  | nil => rfl
  | cons c t ih =>
      simp only [List.find?]
      by_cases h : p = c
      · subst h
        simp
      · have hbeq :
            ((Constraint.only p : Constraint Nat) == Constraint.only c) = false := by
          simp [h]
        rw [hbeq, ih]
        simp [List.mem_cons, h]

/-- C7: with obfuscation `Udp2Tcp` and a pinned udp2tcp port `Only(p)`, the
selected obfuscator endpoint uses port `p` when `p` is among the catalog's
udp2tcp ports and selection fails (`None`) when it is not; with obfuscation
`Off` or `Auto` no obfuscator is returned. -/
theorem obfuscator_selection_spec :
    ∀ (query : RelayConstraintsFilter) (ports : List Nat) (relay : Relay)
      (endpoint : MullvadWireguardEndpoint) (d : Nat),
      (query.wireguard_constraints.obfuscation = .off →
        get_obfuscator query ports relay endpoint d = none) ∧
      (query.wireguard_constraints.obfuscation = .auto →
        get_obfuscator query ports relay endpoint d = none) ∧
      (∀ (s : Udp2TcpObfuscationSettings) (p : Nat),
        query.wireguard_constraints.obfuscation = .udp2tcp →
        query.wireguard_constraints.udp2tcp_port = .only s →
        s.port = .only p →
        ((p ∈ ports →
            get_obfuscator query ports relay endpoint d =
              some { config := .udp2tcpConfig
                       { ip := endpoint.peer.endpoint.ip, port := p }
                     relay := relay }) ∧
         (p ∉ ports → get_obfuscator query ports relay endpoint d = none))) := by
  intro query ports relay endpoint d
  refine ⟨?_, ?_, ?_⟩
  · intro h
    simp only [get_obfuscator, h]
  · intro h
    simp only [get_obfuscator, h]
  · intro s p hobf hct hp
    have hbase :
        get_obfuscator query ports relay endpoint d =
          get_udp2tcp_obfuscator ports s relay endpoint d := by
      simp only [get_obfuscator, hobf, hct]
    constructor
    · intro hmem
      rw [hbase]
      simp [get_udp2tcp_obfuscator, hp, Constraint.is_only, find_pinned_port, hmem]
    · intro hmem
      rw [hbase]
      simp [get_udp2tcp_obfuscator, hp, Constraint.is_only, find_pinned_port, hmem]

/-- Witness for C7: the claim's concrete instance — pinned port 80 with
catalog udp2tcp ports [80, 443] yields an obfuscator endpoint on port 80, and
an `Off` query yields none. -/
theorem obfuscator_selection_spec_witness :
    get_obfuscator sampleUdp2tcpQuery [80, 443] sampleRelayOne sampleEndpoint 0 =
      some { config := .udp2tcpConfig { ip := "10.64.0.1", port := 80 }
             relay := sampleRelayOne } ∧
    get_obfuscator sampleOffQuery [80, 443] sampleRelayOne sampleEndpoint 0 = none :=
  ⟨((obfuscator_selection_spec sampleUdp2tcpQuery [80, 443] sampleRelayOne
        sampleEndpoint 0).2.2 { port := .only 80 } 80 rfl rfl rfl).1 (by decide),
   (obfuscator_selection_spec sampleOffQuery [80, 443] sampleRelayOne
        sampleEndpoint 0).1 rfl⟩

/-- `findRoulette` is exactly the spec's roulette wheel: the first index whose
weight prefix sum reaches the drawn value. -/
theorem findRoulette_eq_prefix_spec {α : Type} (w : α → Nat) :
    ∀ (l : List α) (i : Nat), findRoulette w l i = roulette_prefix_spec w l i := by
  intro l
  induction l with
  | nil => intro i; rfl
  | cons r rs ih =>
      intro i
      by_cases hle : i ≤ w r
      · have hz : i - w r = 0 := Nat.sub_eq_zero_of_le hle
        have hp0 : decide (i ≤ (((r :: rs).take (0 + 1)).map w).sum) = true := by
          simpa using hle
        simp only [findRoulette, hz, if_pos rfl]
        simp only [roulette_prefix_spec, List.length_cons,
          List.range_succ_eq_map, List.find?]
        rw [hp0]
        rfl
      · have hz : ¬ i - w r = 0 := by
          have : w r < i := Nat.lt_of_not_le hle
          omega
        have hp0 : decide (i ≤ (((r :: rs).take (0 + 1)).map w).sum) = false := by
          simpa using hle
        simp only [findRoulette, if_neg hz]
        rw [ih (i - w r)]
        simp only [roulette_prefix_spec, List.length_cons,
          List.range_succ_eq_map, List.find?]
        rw [hp0]
        rw [List.find?_map]
        have hpred :
            (List.range rs.length).find?
              ((fun k => decide (i ≤ (((r :: rs).take (k + 1)).map w).sum)) ∘
                Nat.succ) =
            (List.range rs.length).find?
              (fun k => decide (i - w r ≤ ((rs.take (k + 1)).map w).sum)) := by
          apply find?_ext
          intro k _
          simp only [Function.comp]
          have : (((r :: rs).take (k + 1 + 1)).map w).sum =
              w r + ((rs.take (k + 1)).map w).sum := by
            simp [List.take_succ_cons]
          rw [this]
          apply decide_eq_decide.mpr
          omega
        rw [hpred]
        cases hfind :
            (List.range rs.length).find?
              (fun k => decide (i - w r ≤ ((rs.take (k + 1)).map w).sum)) with
        | none => rfl
        | some k => simp [Option.bind]

/-- When the draw is within the total weight, the roulette wheel finds an
element. -/
theorem roulette_prefix_spec_isSome {α : Type} (w : α → Nat) (l : List α)
    (i : Nat) (hi : i ≤ (l.map w).sum) (hl : l ≠ []) :
    ∃ r, roulette_prefix_spec w l i = some r := by
  have hlen : 0 < l.length := List.length_pos.mpr hl
  have hfind : ((List.range l.length).find?
      (fun k => decide (i ≤ ((l.take (k + 1)).map w).sum))).isSome = true := by
    rw [List.find?_isSome]
    refine ⟨l.length - 1, List.mem_range.mpr (by omega), ?_⟩
    show decide (i ≤ ((l.take (l.length - 1 + 1)).map w).sum) = true
    have h1 : l.length - 1 + 1 = l.length := by omega
    rw [h1, List.take_length]
    simpa using hi
  obtain ⟨k, hk⟩ := Option.isSome_iff_exists.mp hfind
  have hklt : k < l.length := List.mem_range.mp (List.mem_of_find?_eq_some hk)
  have hget : l.get? k = some (l.get ⟨k, hklt⟩) := List.get?_eq_get hklt
  refine ⟨l.get ⟨k, hklt⟩, ?_⟩
  simp only [roulette_prefix_spec, hk]
  exact hget

/-- C5: `pick_random_relay_fn` — when the total weight is zero it picks
uniformly at random and returns `none` exactly on the empty slice; when the
total weight is positive, for the uniform draw `i = d % W + 1 ∈ [1, W]` it
returns the first relay at which the running sum of the weights reaches at
least `i` (the roulette wheel), and always returns some relay. -/
theorem pick_random_relay_fn_spec {α : Type} :
    ∀ (relays : List α) (w : α → Nat) (d : Nat),
      ((relays.map w).sum = 0 →
        (pick_random_relay_fn relays w d = none ↔ relays = [])) ∧
      (0 < (relays.map w).sum →
        (1 ≤ d % (relays.map w).sum + 1 ∧
         d % (relays.map w).sum + 1 ≤ (relays.map w).sum) ∧
        pick_random_relay_fn relays w d =
          roulette_prefix_spec w relays (d % (relays.map w).sum + 1) ∧
        ∃ r, pick_random_relay_fn relays w d = some r) := by
  intro relays w d
  constructor
  · intro h0
    have hpick : pick_random_relay_fn relays w d =
        relays.get? (d % relays.length) := by
      simp [pick_random_relay_fn, h0]
    rw [hpick]
    cases relays with
    | nil => simp
    | cons a t =>
        have hlt : d % (a :: t).length < (a :: t).length :=
          Nat.mod_lt _ (by simp)
        constructor
        · intro hnone
          exfalso
          rw [List.get?_eq_none] at hnone
          omega
        · intro h
          exact absurd h (by simp)
  · intro hpos
    have hne : ¬ (relays.map w).sum = 0 := by omega
    have hmod : d % (relays.map w).sum < (relays.map w).sum :=
      Nat.mod_lt _ hpos
    have hlne : relays ≠ [] := by
      intro h
      subst h
      simp at hpos
    have heq : pick_random_relay_fn relays w d =
        roulette_prefix_spec w relays (d % (relays.map w).sum + 1) := by
      simp only [pick_random_relay_fn, if_neg hne]
      exact findRoulette_eq_prefix_spec w relays _
    refine ⟨⟨by omega, by omega⟩, heq, ?_⟩
    obtain ⟨r, hr⟩ := roulette_prefix_spec_isSome w relays
      (d % (relays.map w).sum + 1) (by omega) hlne
    exact ⟨r, by rw [heq, hr]⟩

/-- Witness for C5: the zero-weight case on an empty and a nonempty slice, and
the positive case on a two-element slice with weights 1 and 3 and draw 5
(`i = 5 % 4 + 1 = 2`, first prefix sum reaching 2 is at index 1). -/
theorem pick_random_relay_fn_spec_witness :
    (pick_random_relay_fn ([] : List Nat) (fun x => x) 7 = none ↔
      ([] : List Nat) = []) ∧
    pick_random_relay_fn [1, 3] (fun x => x) 5 =
      roulette_prefix_spec (fun x => x) [1, 3] (5 % 4 + 1) ∧
    pick_random_relay_fn [1, 3] (fun x => x) 5 = some 3 :=
  ⟨(pick_random_relay_fn_spec ([] : List Nat) (fun x => x) 7).1 rfl,
   ((pick_random_relay_fn_spec [1, 3] (fun x => x) 5).2 (by decide)).2.1,
   by decide⟩

/-- C2 counterexample: with an unpinned (`Any`) location, a hidden
(`include_in_country = false`) relay is returned by the filter pipeline even
though a visible relay satisfies every predicate of the same query — the
second location pass only enforces `include_in_country` for country-level
geographic constraints. -/
theorem hidden_relay_returned_beside_visible :
    (filter_on_active sampleRelayOne = true ∧
     filter_on_location Constraint.any sampleRelayOne = true ∧
     filter_on_ownership Constraint.any sampleRelayOne = true ∧
     filter_on_providers Constraint.any sampleRelayOne = true ∧
     filter_wireguard sampleRelayOne = true ∧
     sampleRelayOne.include_in_country = true) ∧
    sampleRelayTwo.include_in_country = false ∧
    sampleRelayOne ∈ get_tunnel_endpoints [sampleRelayOne, sampleRelayTwo]
        RelayConstraintsFilter.new sampleOvpnData .off sampleWgData [] ∧
    sampleRelayTwo ∈ get_tunnel_endpoints [sampleRelayOne, sampleRelayTwo]
        RelayConstraintsFilter.new sampleOvpnData .off sampleWgData [] := by
  decide

/-- C2 (amended): when the query's resolved location constraint is a single
geographic country constraint, a hidden relay is never returned while some
visible relay satisfies the query's predicates (active, location, ownership,
providers, endpoint kind). -/
theorem hidden_relay_excluded_for_country_constraint
    (m : RelayMatcher) (relays : List Relay) (c : String) (v : Relay)
    (hloc : m.locations = .only (.location (.country c)))
    (hmem : v ∈ relays)
    (hact : filter_on_active v = true)
    (hlocv : filter_on_location m.locations v = true)
    (hown : filter_on_ownership m.ownership v = true)
    (hprov : filter_on_providers m.providers v = true)
    (hend : m.endpoint_matcher v = true)
    (hinc : v.include_in_country = true) :
    ∀ r ∈ m.filter_matching_relay_list relays, r.include_in_country = true := by
  intro r hr
  simp only [RelayMatcher.filter_matching_relay_list] at hr
  rw [List.mem_filter] at hr
  obtain ⟨hr_short, hr_pred⟩ := hr
  have hv1 : v ∈ relays.filter filter_on_active :=
    List.mem_filter.mpr ⟨hmem, hact⟩
  have hv2 := List.mem_filter.mpr ⟨hv1, hlocv⟩
  have hv3 := List.mem_filter.mpr ⟨hv2, hown⟩
  have hv4 := List.mem_filter.mpr ⟨hv3, hprov⟩
  have hv5 := List.mem_filter.mpr ⟨hv4, hend⟩
  have hany :
      (((((relays.filter filter_on_active).filter
          (filter_on_location m.locations)).filter
          (filter_on_ownership m.ownership)).filter
          (filter_on_providers m.providers)).filter m.endpoint_matcher).any
        (fun r => r.include_in_country) = true :=
    List.any_eq_true.mpr ⟨v, hv5, hinc⟩
  rw [hany] at hr_pred
  rw [hloc] at hr_pred
  simp only [Constraint.location_matches_with_opts,
    ResolvedLocationConstraint.matches_with_opts,
    GeographicLocationConstraint.matches_with_opts, Bool.not_true,
    Bool.false_or, Bool.and_eq_true] at hr_pred
  exact hr_pred.2

/-- Witness for C2: the country-constrained matcher over a visible and a
hidden Swedish relay returns only visible relays (every hypothesis discharged
at the concrete catalog). -/
theorem hidden_relay_excluded_for_country_constraint_witness :
    (sampleCountryMatcher.filter_matching_relay_list
        [sampleRelayOne, sampleRelayTwo]).all
      (fun r => r.include_in_country) = true :=
  List.all_eq_true.mpr
    (fun r hr =>
      hidden_relay_excluded_for_country_constraint sampleCountryMatcher
        [sampleRelayOne, sampleRelayTwo] "se" sampleRelayOne rfl
        (by decide) (by decide) (by decide) (by decide) (by decide)
        (by decide) (by decide) r hr)

/-- An element picked by `randomExcluding` is never the excluded one. -/
theorem randomExcluding_ne {α : Type} [DecidableEq α] {slice : List α}
    {exclude x : α} {d : Nat}
    (h : randomExcluding slice exclude d = some x) : x ≠ exclude := by
  unfold randomExcluding at h
  have hx : x ∈ slice.filter (fun y => y ≠ exclude) := List.get?_mem h
  have := (List.mem_filter.mp hx).2
  simpa using this

/-- A mapped `randomExcluding` pair has a first component different from the
excluded element and keeps the fixed second component. -/
theorem mapPairFst {s : List Relay} {ex y x e : Relay} {d : Nat}
    (h : (randomExcluding s ex d).map (fun a => (a, y)) = some (x, e)) :
    x ≠ ex ∧ y = e := by
  cases hr : randomExcluding s ex d with
  | none => rw [hr] at h; simp at h
  | some a =>
      rw [hr] at h
      have hp := Option.some.inj h
      have hax : a = x := congrArg Prod.fst hp
      have hye : y = e := congrArg Prod.snd hp
      subst hax
      exact ⟨randomExcluding_ne hr, hye⟩

/-- A mapped `randomExcluding` pair has a second component different from the
excluded element and keeps the fixed first component. -/
theorem mapPairSnd {s : List Relay} {ex y x e : Relay} {d : Nat}
    (h : (randomExcluding s ex d).map (fun a => (y, a)) = some (x, e)) :
    e ≠ ex ∧ y = x := by
  cases hr : randomExcluding s ex d with
  | none => rw [hr] at h; simp at h
  | some a =>
      rw [hr] at h
      have hp := Option.some.inj h
      have hae : a = e := congrArg Prod.snd hp
      have hyx : y = x := congrArg Prod.fst hp
      subst hae
      exact ⟨randomExcluding_ne hr, hyx⟩

/-- The fall-through arm always yields distinct components. -/
theorem multihopDefaultArm_ne {exits entrys : List Relay} {d1 d2 : Nat}
    {x e : Relay} (h : multihopDefaultArm exits entrys d1 d2 = some (x, e)) :
    x ≠ e := by
  unfold multihopDefaultArm at h
  cases hp : pick_random_relay exits d1 with
  | none => rw [hp] at h; simp at h
  | some a =>
      rw [hp] at h
      obtain ⟨hne, hax⟩ := mapPairSnd h
      subst hax
      exact fun hxe => hne hxe.symm

/-- Every arm of the multihop selection match yields a pair of distinct
relays. -/
theorem multihopPick_ne (exits entrys : List Relay) (d1 d2 : Nat)
    (x e : Relay) (h : multihopPick exits entrys d1 d2 = some (x, e)) :
    x ≠ e := by
  rcases exits with _ | ⟨x1, _ | ⟨x2, xs⟩⟩ <;>
    rcases entrys with _ | ⟨e1, _ | ⟨e2, es⟩⟩ <;>
    simp only [multihopPick] at h
  · exact multihopDefaultArm_ne h
  · split_ifs at h with h1
    · obtain ⟨hne, heq⟩ := mapPairFst h
      exact heq ▸ hne
    · exact multihopDefaultArm_ne h
  · exact multihopDefaultArm_ne h
  · split_ifs at h with h1
    · obtain ⟨hne, heq⟩ := mapPairSnd h
      exact fun hxe => hne (heq ▸ hxe).symm
    · exact multihopDefaultArm_ne h
  · split_ifs at h with h1 h2 h3
    · obtain ⟨hne, heq⟩ := mapPairFst h
      exact heq ▸ hne
    · obtain ⟨hne, heq⟩ := mapPairSnd h
      exact fun hxe => hne (heq ▸ hxe).symm
    · exact multihopDefaultArm_ne h
  · split_ifs at h with h1
    · obtain ⟨hne, heq⟩ := mapPairSnd h
      exact fun hxe => hne (heq ▸ hxe).symm
    · exact multihopDefaultArm_ne h
  · exact multihopDefaultArm_ne h
  · split_ifs at h with h1
    · obtain ⟨hne, heq⟩ := mapPairFst h
      exact heq ▸ hne
    · exact multihopDefaultArm_ne h
  · exact multihopDefaultArm_ne h

/-- C3: `get_wireguard_multihop_config` never returns an equal exit/entry
pair, for every query, custom lists, catalog data and RNG draws; when both
candidate lists are the same singleton the selection match yields nothing,
and the function fails with `NoRelay`. -/
theorem multihop_exit_entry_distinct :
    (∀ (query : RelayConstraintsFilter) (cls : CustomListsSettings)
       (wg : WireguardEndpointData) (relays : List Relay) (d1 d2 : Nat)
       (x e : Relay),
       get_wireguard_multihop_config query cls wg relays d1 d2 =
         Except.ok (x, e) → x ≠ e) ∧
    (∀ (r : Relay) (d1 d2 : Nat), multihopPick [r] [r] d1 d2 = none) ∧
    (∀ (query : RelayConstraintsFilter) (cls : CustomListsSettings)
       (wg : WireguardEndpointData) (relays : List Relay) (d1 d2 : Nat)
       (r : Relay),
       (WireguardMatcher.new_matcher query wg cls).filter_matching_relay_list
           relays = [r] →
       (WireguardMatcher.new_matcher
           { query with location := query.wireguard_constraints.entry_location }
           wg cls).filter_matching_relay_list relays = [r] →
       get_wireguard_multihop_config query cls wg relays d1 d2 =
         Except.error Error.noRelay) := by
  refine ⟨?_, ?_, ?_⟩
  · intro query cls wg relays d1 d2 x e h
    simp only [get_wireguard_multihop_config] at h
    split at h
    · next exit entry heq =>
        injection h with h
        injection h with hx he
        subst hx
        subst he
        exact multihopPick_ne _ _ d1 d2 exit entry heq
    · exact absurd h (by simp)
  · intro r d1 d2
    simp [multihopPick]
  · intro query cls wg relays d1 d2 r h1 h2
    simp only [get_wireguard_multihop_config]
    rw [h1, h2]
    simp [multihopPick]

/-- Witness for C3: at a concrete two-relay catalog the multihop selection
returns the pair (sampleRelayOne, sampleRelayTwo), which the theorem proves
distinct; the singleton-equal case fails with `NoRelay`. -/
theorem multihop_exit_entry_distinct_witness :
    get_wireguard_multihop_config RelayConstraintsFilter.new [] sampleWgData
      [sampleRelayOne, sampleRelayTwo] 0 0 =
      Except.ok (sampleRelayOne, sampleRelayTwo) ∧
    sampleRelayOne ≠ sampleRelayTwo ∧
    multihopPick [sampleRelayOne] [sampleRelayOne] 3 4 = none ∧
    get_wireguard_multihop_config RelayConstraintsFilter.new [] sampleWgData
      [sampleRelayOne] 0 0 = Except.error Error.noRelay := by
  have hok : get_wireguard_multihop_config RelayConstraintsFilter.new []
      sampleWgData [sampleRelayOne, sampleRelayTwo] 0 0 =
      Except.ok (sampleRelayOne, sampleRelayTwo) := by rfl
  refine ⟨hok, ?_, ?_, ?_⟩
  · exact multihop_exit_entry_distinct.1 RelayConstraintsFilter.new []
      sampleWgData [sampleRelayOne, sampleRelayTwo] 0 0 sampleRelayOne
      sampleRelayTwo hok
  · exact multihop_exit_entry_distinct.2.1 sampleRelayOne 3 4
  · exact multihop_exit_entry_distinct.2.2 RelayConstraintsFilter.new []
      sampleWgData [sampleRelayOne] 0 0 sampleRelayOne (by rfl) (by rfl)

/-- C6: `get_bridge` over UDP always fails with `NoBridge`; over TCP it never
produces `NoBridge` (it yields `Ok` or, for a relay without a location,
`NoRelay`); and the multihop selection — the other error-producing selection
path embedded here — never produces `NoBridge` either. -/
theorem get_bridge_udp_no_bridge :
    ∀ (query : BridgeSettingsFilter) (relay : Relay) (relays : List Relay)
      (bd : BridgeEndpointData) (cls : CustomListsSettings)
      (dist : Location → Relay → Nat) (d1 d2 : Nat),
      get_bridge query relay .udp relays bd cls dist d1 d2 =
        .error .noBridge ∧
      get_bridge query relay .tcp relays bd cls dist d1 d2 ≠
        .error .noBridge ∧
      (∀ (q : RelayConstraintsFilter) (wg : WireguardEndpointData)
         (e1 e2 : Nat),
         get_wireguard_multihop_config q cls wg relays e1 e2 ≠
           .error .noBridge) := by
  intro query relay relays bd cls dist d1 d2
  refine ⟨rfl, ?_, ?_⟩
  · unfold get_bridge
    cases relay.location with
    | none => simp
    | some loc => simp
  · intro q wg e1 e2
    simp only [get_wireguard_multihop_config]
    cases hmp : multihopPick
        ((WireguardMatcher.new_matcher q wg cls).filter_matching_relay_list
          relays)
        ((WireguardMatcher.new_matcher
            { q with location := q.wireguard_constraints.entry_location }
            wg cls).filter_matching_relay_list relays) e1 e2 with
    | none => simp [hmp]
    | some p => simp [hmp]

/-- Witness for C6 at a concrete bridge query: UDP yields `NoBridge`, TCP
does not. -/
theorem get_bridge_udp_no_bridge_witness :
    get_bridge .off sampleBridgeRelay .udp [sampleBridgeRelay]
        sampleBridgeData [] (fun _ _ => 0) 0 0 = .error .noBridge ∧
    get_bridge .off sampleBridgeRelay .tcp [sampleBridgeRelay]
        sampleBridgeData [] (fun _ _ => 0) 0 0 ≠ .error .noBridge :=
  ⟨(get_bridge_udp_no_bridge .off sampleBridgeRelay [sampleBridgeRelay]
      sampleBridgeData [] (fun _ _ => 0) 0 0).1,
   (get_bridge_udp_no_bridge .off sampleBridgeRelay [sampleBridgeRelay]
      sampleBridgeData [] (fun _ _ => 0) 0 0).2.1⟩

/-- Out of fuel, the cycled search yields nothing. -/
theorem cycleZero {α β : Type} (f : α → Option β) (l cur : List α) (n : Nat) :
    cycleFilterMapNth f l cur n 0 = none := by
  cases cur <;> rfl

/-- When every row of `l` (and of the current pass) maps to `none`, the cycled
search yields nothing, whatever the fuel: the source's iterator never
produces an element. -/
theorem cycleDead {α β : Type} (f : α → Option β) (l : List α)
    (hl : ∀ c ∈ l, f c = none) :
    ∀ (fuel : Nat) (cur : List α) (n : Nat), (∀ c ∈ cur, f c = none) →
      cycleFilterMapNth f l cur n fuel = none := by
  intro fuel
  induction fuel with
  | zero => intro cur n _; exact cycleZero f l cur n
  | succ fuel ih =>
      intro cur n hc
      cases cur with
      | nil =>
          simp only [cycleFilterMapNth]
          by_cases he : l.isEmpty = true
          · rw [if_pos he]
          · rw [if_neg he]
            exact ih l n hl
      | cons c rest =>
          have hfc : f c = none := hc c (by simp)
          simp only [cycleFilterMapNth, hfc]
          exact ih rest n (fun x hx => hc x (by simp [hx]))

/-- A successful cycled search stays successful with more fuel. -/
theorem cycleMono {α β : Type} (f : α → Option β) (l : List α) :
    ∀ (fuel fuel2 : Nat) (cur : List α) (n : Nat) (r : β),
      fuel ≤ fuel2 →
      cycleFilterMapNth f l cur n fuel = some r →
      cycleFilterMapNth f l cur n fuel2 = some r := by
  intro fuel
  induction fuel with
  | zero =>
      intro fuel2 cur n r _ h
      rw [cycleZero] at h
      exact absurd h (by simp)
  | succ fuel ih =>
      intro fuel2 cur n r hle h
      cases fuel2 with
      | zero => omega
      | succ fuel2 =>
          have hle2 : fuel ≤ fuel2 := by omega
          cases cur with
          | nil =>
              simp only [cycleFilterMapNth] at h ⊢
              by_cases he : l.isEmpty = true
              · rw [if_pos he] at h
                exact absurd h (by simp)
              · rw [if_neg he] at h ⊢
                exact ih fuel2 l n r hle2 h
          | cons c rest =>
              simp only [cycleFilterMapNth] at h ⊢
              cases hfc : f c with
              | none =>
                  rw [hfc] at h
                  exact ih fuel2 rest n r hle2 h
              | some b =>
                  rw [hfc] at h
                  cases n with
                  | zero => exact h
                  | succ m => exact ih fuel2 rest m r hle2 h

/-- One pass over the current list: with enough fuel for the pass, the search
either finds the n-th survivor inside it or continues from an exhausted pass
with the index reduced by the number of survivors. -/
theorem cyclePass {α β : Type} (f : α → Option β) (l : List α) :
    ∀ (cur : List α) (n fuel : Nat),
      cycleFilterMapNth f l cur n (cur.length + fuel) =
        match (cur.filterMap f).get? n with
        | some b => some b
        | none => cycleFilterMapNth f l [] (n - (cur.filterMap f).length) fuel := by
  intro cur
  induction cur with
  | nil =>
      intro n fuel
      simp only [List.length_nil, Nat.zero_add, List.filterMap_nil,
        List.get?_nil, List.length_nil, Nat.sub_zero]
  | cons c rest ih =>
      intro n fuel
      have hlen : (c :: rest).length + fuel = (rest.length + fuel) + 1 := by
        simp only [List.length_cons]
        omega
      rw [hlen]
      simp only [cycleFilterMapNth]
      cases hfc : f c with
      | none =>
          rw [List.filterMap_cons_none hfc]
          exact ih n fuel
      | some b =>
          rw [List.filterMap_cons_some hfc]
          cases n with
          | zero => simp
          | succ m =>
              simp only [List.get?_cons_succ, List.length_cons,
                Nat.succ_sub_succ]
              exact ih m fuel

/-- When some row survives, fuel `(n + 1) * (length + 1)` suffices to find the
n-th element of the cycled filtered stream. -/
theorem cycleForward {α β : Type} (f : α → Option β) (l : List α)
    (ht : l.filterMap f ≠ []) :
    ∀ n : Nat,
      ∃ r, cycleFilterMapNth f l l n ((n + 1) * (l.length + 1)) = some r := by
  intro n
  induction n using Nat.strong_induction_on with
  | _ n ih =>
      have hlne : l ≠ [] := by
        intro h
        subst h
        simp at ht
      have hfuel : (n + 1) * (l.length + 1) =
          l.length + (n * (l.length + 1) + 1) := by ring
      rw [hfuel, cyclePass f l l n (n * (l.length + 1) + 1)]
      cases hget : (l.filterMap f).get? n with
      | some b => exact ⟨b, rfl⟩
      | none =>
          have hlen : (l.filterMap f).length ≤ n := List.get?_eq_none.mp hget
          have htpos : 0 < (l.filterMap f).length := List.length_pos.mpr ht
          have hmlt : n - (l.filterMap f).length < n := by omega
          obtain ⟨r, hr⟩ := ih (n - (l.filterMap f).length) hmlt
          refine ⟨r, ?_⟩
          have hstep : cycleFilterMapNth f l [] (n - (l.filterMap f).length)
              (n * (l.length + 1) + 1) =
              cycleFilterMapNth f l l (n - (l.filterMap f).length)
                (n * (l.length + 1)) := by
            simp only [cycleFilterMapNth]
            rw [if_neg (by simp [hlne])]
          rw [hstep]
          exact cycleMono f l ((n - (l.filterMap f).length + 1) * (l.length + 1))
            (n * (l.length + 1)) l (n - (l.filterMap f).length) r
            (Nat.mul_le_mul_right _ (by omega)) hr

/-- C10: for a non-empty retry order, `get_relay_with_order`'s cycled
`filter_map` search terminates with a value (for some fuel) exactly when at
least one row has a non-`None` intersection with the user's preferences; when
every row intersects to `None`, the cycled iterator yields nothing whatever
the fuel, for every retry attempt. -/
theorem retry_ladder_termination_iff
    (retry_order : List RelayConstraintsFilter)
    (user_preferences : RelayConstraintsFilter) (retry_attempt : Nat)
    (_h : retry_order ≠ []) :
    (∃ fuel r, effectiveConstraints retry_order user_preferences retry_attempt
        fuel = some r) ↔
    ∃ c ∈ retry_order, c.intersection user_preferences ≠ none := by
  constructor
  · rintro ⟨fuel, r, hr⟩
    by_contra hnone
    push_neg at hnone
    have hdead := cycleDead (fun c => c.intersection user_preferences)
      retry_order hnone fuel retry_order retry_attempt hnone
    rw [effectiveConstraints] at hr
    rw [hdead] at hr
    exact absurd hr (by simp)
  · rintro ⟨c, hc, hcne⟩
    have ht : retry_order.filterMap
        (fun c => c.intersection user_preferences) ≠ [] := by
      intro hempty
      obtain ⟨v, hv⟩ := Option.ne_none_iff_exists'.mp hcne
      have hvmem : v ∈ retry_order.filterMap
          (fun c => c.intersection user_preferences) :=
        List.mem_filterMap.mpr ⟨c, hc, hv⟩
      rw [hempty] at hvmem
      simp at hvmem
    obtain ⟨r, hr⟩ := cycleForward
      (fun c => c.intersection user_preferences) retry_order ht retry_attempt
    exact ⟨(retry_attempt + 1) * (retry_order.length + 1), r, hr⟩

/-- Witness for C10: at the concrete `RETRY_ORDER` and an unconstrained user
preference record with retry attempt 2, the hypothesis (a non-empty retry
order) is discharged concretely. -/
theorem retry_ladder_termination_iff_witness :
    (∃ fuel r, effectiveConstraints RETRY_ORDER RelayConstraintsFilter.new 2
        fuel = some r) ↔
    ∃ c ∈ RETRY_ORDER, c.intersection RelayConstraintsFilter.new ≠ none :=
  retry_ladder_termination_iff RETRY_ORDER RelayConstraintsFilter.new 2
    (by decide)
